import Mathlib

/-!
Verification of the domaindetails-mcp domain-lookup server.

The JavaScript sources are shallowly embedded: every definition below mirrors a
function of the repository (`src/lib/whois.js`, `src/services/registry-detector.js`,
`src/lib/rdap.js`, `src/tools/domain-lookup.js`).  JavaScript strings are
modelled as Lean `String`s, but every string operation is implemented over the
underlying character list so that all definitions evaluate inside the kernel.
Network effects (`fetch`) are modelled by passing the observable outcome of the
call as an explicit argument.
-/

/-! ## JavaScript string primitives (List Char based, kernel-computable) -/

/-- JavaScript whitespace test used by `String.prototype.trim` and `\s`
(restricted to the ASCII whitespace that occurs in WHOIS payloads). -/
def jsWsChar (c : Char) : Bool := c.isWhitespace

/-- Characters matched by the JavaScript regex `.` (anything except line
terminators; the astral terminators U+2028/U+2029 do not occur in our data). -/
def jsDotChar (c : Char) : Bool := !(c == '\n' || c == '\r')

def trimCharList (l : List Char) : List Char :=
  ((l.dropWhile jsWsChar).reverse.dropWhile jsWsChar).reverse

/-- `String.prototype.trim`. -/
def jsTrim (s : String) : String := String.mk (trimCharList s.data)

/-- `String.prototype.toLowerCase` (ASCII). -/
def jsToLower (s : String) : String := String.mk (s.data.map Char.toLower)

def listStartsWith : List Char → List Char → Bool
  | _, [] => true
  | [], _ :: _ => false
  | c :: cs, p :: ps => c == p && listStartsWith cs ps

/-- `String.prototype.startsWith`. -/
def jsStartsWith (s pat : String) : Bool := listStartsWith s.data pat.data

def splitAtChar (sep : Char) : List Char → List (List Char)
  | [] => [[]]
  | c :: rest =>
    let r := splitAtChar sep rest
    if c == sep then [] :: r
    else
      match r with
      | [] => [[c]]
      | h :: t => (c :: h) :: t

/-- `String.prototype.split` with a single-character separator. -/
def jsSplitChar (s : String) (sep : Char) : List String :=
  (splitAtChar sep s.data).map String.mk

/-- `Array.prototype.join`. -/
def jsJoin (sep : String) : List String → String
  | [] => ""
  | [x] => x
  | x :: y :: xs => x ++ sep ++ jsJoin sep (y :: xs)

/-- `String.prototype.includes` for a single character. -/
def jsIncludesChar (s : String) (c : Char) : Bool := s.data.contains c

/-- `String.prototype.length` (all our data is in the BMP, so the UTF-16
length equals the character count). -/
def jsLength (s : String) : Nat := s.data.length

/-- JavaScript truthiness of a possibly-absent string field (`undefined` and
the empty string are falsy). -/
def jsTruthyStr : Option String → Bool
  | none => false
  | some s => s != ""

/-! ## RegistryDetector (src/services/registry-detector.js) -/

namespace RegistryDetector

/-- The `commonSecondLevel` set of `getTLD`. -/
def commonSecondLevel : List String :=
  ["co.uk", "org.uk", "me.uk", "ltd.uk", "plc.uk",
   "com.au", "net.au", "org.au", "edu.au",
   "co.nz", "net.nz", "org.nz",
   "co.za", "net.za", "org.za",
   "co.in", "net.in", "org.in",
   "com.br", "net.br", "org.br",
   "co.jp", "or.jp", "ne.jp"]

/-- `RegistryDetector.getTLD`: split the lower-cased domain on `.`; fewer than
two labels is a format error; with at least three labels a recognized
two-label suffix wins; otherwise the bare last label is returned. -/
def getTLD (domain : String) : Except String String :=
  if domain = "" then .error "Invalid domain provided"
  else
    let parts := jsSplitChar (jsToLower domain) '.'
    if parts.length < 2 then .error "Invalid domain format"
    else
      let secondLevel := jsJoin "." (parts.drop (parts.length - 2))
      if 3 ≤ parts.length && commonSecondLevel.contains secondLevel then
        .ok secondLevel
      else
        .ok (parts.getLastD "")

/-- The static TLD → WHOIS server table of `getWhoisServer`. -/
def whoisServers : List (String × String) :=
  [("com", "whois.verisign-grs.com"), ("net", "whois.verisign-grs.com"),
   ("org", "whois.pir.org"), ("info", "whois.afilias.net"),
   ("biz", "whois.afilias.net"), ("name", "whois.nic.name"),
   ("pro", "whois.afilias.net"), ("uk", "whois.nic.uk"),
   ("co.uk", "whois.nic.uk"), ("org.uk", "whois.nic.uk"),
   ("me.uk", "whois.nic.uk"), ("ltd.uk", "whois.nic.uk"),
   ("plc.uk", "whois.nic.uk"), ("ca", "whois.cira.ca"),
   ("au", "whois.aunic.net"), ("com.au", "whois.aunic.net"),
   ("net.au", "whois.aunic.net"), ("org.au", "whois.aunic.net"),
   ("edu.au", "whois.aunic.net"), ("de", "whois.denic.de"),
   ("fr", "whois.nic.fr"), ("nl", "whois.domain-registry.nl"),
   ("be", "whois.dns.be"), ("ch", "whois.nic.ch"),
   ("at", "whois.nic.at"), ("it", "whois.nic.it"),
   ("es", "whois.nic.es"), ("se", "whois.iis.se"),
   ("no", "whois.norid.no"), ("dk", "whois.dk-hostmaster.dk"),
   ("fi", "whois.ficora.fi"), ("ie", "whois.weare.ie"),
   ("pl", "whois.dns.pl"), ("cz", "whois.nic.cz"),
   ("sk", "whois.sk-nic.sk"), ("hu", "whois.nic.hu"),
   ("ro", "whois.rotld.ro"), ("bg", "whois.register.bg"),
   ("hr", "whois.dns.hr"), ("si", "whois.register.si"),
   ("lv", "whois.nic.lv"), ("lt", "whois.domreg.lt"),
   ("ee", "whois.tld.ee"), ("xyz", "whois.nic.xyz"),
   ("top", "whois.nic.top"), ("site", "whois.centralnic.com"),
   ("online", "whois.centralnic.com"), ("tech", "whois.nic.tech"),
   ("store", "whois.nic.store"), ("io", "whois.nic.io"),
   ("ai", "whois.nic.ai"), ("co", "whois.nic.co"),
   ("me", "whois.nic.me"), ("tv", "whois.nic.tv"),
   ("cc", "whois.nic.cc")]

/-- `RegistryDetector.getWhoisServer`: static table lookup with the IANA
referral server as default.  The function performs no network access
(its body contains no `fetch`). -/
def getWhoisServer (domain : String) : Except String String :=
  match getTLD domain with
  | .error e => .error e
  | .ok tld => .ok ((whoisServers.lookup tld).getD "whois.iana.org")

end RegistryDetector

/-- C7: for every valid domain (at least two labels), `getTLD` succeeds and
returns either the bare last label or, when the domain has at least three
labels and its last two labels form a member of the compound-suffix set, that
two-label suffix (which takes precedence); it never returns an intermediate
label.  Determinism holds because `getTLD` is a pure function. -/
theorem getTLD_last_or_compound (d : String)
    (hne : d ≠ "")
    (hlen : 2 ≤ (jsSplitChar (jsToLower d) '.').length) :
    ∃ k, RegistryDetector.getTLD d = .ok k ∧
      (k = (jsSplitChar (jsToLower d) '.').getLastD "" ∨
        (3 ≤ (jsSplitChar (jsToLower d) '.').length ∧
          k = jsJoin "." ((jsSplitChar (jsToLower d) '.').drop
                ((jsSplitChar (jsToLower d) '.').length - 2)) ∧
          RegistryDetector.commonSecondLevel.contains k = true)) ∧
      (3 ≤ (jsSplitChar (jsToLower d) '.').length →
        RegistryDetector.commonSecondLevel.contains
          (jsJoin "." ((jsSplitChar (jsToLower d) '.').drop
            ((jsSplitChar (jsToLower d) '.').length - 2))) = true →
        k = jsJoin "." ((jsSplitChar (jsToLower d) '.').drop
              ((jsSplitChar (jsToLower d) '.').length - 2))) := by
  unfold RegistryDetector.getTLD
  rw [if_neg hne, if_neg (by omega)]
  by_cases hc : (3 ≤ (jsSplitChar (jsToLower d) '.').length &&
      RegistryDetector.commonSecondLevel.contains
        (jsJoin "." ((jsSplitChar (jsToLower d) '.').drop
          ((jsSplitChar (jsToLower d) '.').length - 2)))) = true
  · rw [if_pos hc]
    rcases Bool.and_eq_true_iff.mp hc with ⟨h3, hmem⟩
    exact ⟨_, rfl, Or.inr ⟨by exact_mod_cast of_decide_eq_true h3, rfl, hmem⟩,
      fun _ _ => rfl⟩
  · rw [if_neg hc]
    refine ⟨_, rfl, Or.inl rfl, fun h3 hmem => absurd ?_ hc⟩
    exact Bool.and_eq_true_iff.mpr ⟨decide_eq_true h3, hmem⟩

/-- Witness for C7 at the concrete domain `shop.example.co.uk`, whose registry
key is the compound suffix `co.uk`. -/
theorem getTLD_last_or_compound_witness :
    RegistryDetector.getTLD "shop.example.co.uk" = .ok "co.uk" := by
  obtain ⟨k, hk, _, hp⟩ :=
    getTLD_last_or_compound "shop.example.co.uk" (by decide) (by decide)
  have hco : k = "co.uk" := by
    have := hp (by decide) (by decide)
    simpa using this
  rw [hco] at hk
  exact hk

/-- C8: for every domain whose registry key misses the static WHOIS table,
`getWhoisServer` returns the constant default referral server
`whois.iana.org` (in particular neither null nor empty); the function body
performs no network access. -/
theorem getWhoisServer_default (d tld : String)
    (htld : RegistryDetector.getTLD d = .ok tld)
    (hmiss : RegistryDetector.whoisServers.lookup tld = none) :
    RegistryDetector.getWhoisServer d = .ok "whois.iana.org" ∧
      "whois.iana.org" ≠ "" := by
  refine ⟨?_, by decide⟩
  unfold RegistryDetector.getWhoisServer
  rw [htld]
  show Except.ok ((RegistryDetector.whoisServers.lookup tld).getD "whois.iana.org") =
    Except.ok "whois.iana.org"
  rw [hmiss]
  rfl

/-- Witness for C8 at the concrete domain `example.zz` (TLD `zz` is not in
the static table). -/
theorem getWhoisServer_default_witness :
    RegistryDetector.getWhoisServer "example.zz" = .ok "whois.iana.org" ∧
      "whois.iana.org" ≠ "" :=
  getWhoisServer_default "example.zz" "zz" rfl (by decide)

/-! ## WhoisClient date normalization (src/lib/whois.js, parseDate) -/

/-- One token of a fixed-shape date regex (`\d` or a literal character). -/
inductive ShapeTok where
  | digit
  | lit (c : Char)

def shapeAt : List ShapeTok → List Char → Bool
  | [], _ => true
  | _ :: _, [] => false
  | .digit :: ts, c :: cs => c.isDigit && shapeAt ts cs
  | .lit x :: ts, c :: cs => c == x && shapeAt ts cs

/-- Unanchored regex search for a fixed shape (the four date regexes have no
quantifier variability, so matching is shape matching at some position). -/
def hasShape (shape : List ShapeTok) : List Char → Bool
  | [] => shapeAt shape []
  | c :: rest => shapeAt shape (c :: rest) || hasShape shape rest

/-- `/(\d{4})-(\d{2})-(\d{2})/` -/
def fmtYmdDash : List ShapeTok :=
  [.digit, .digit, .digit, .digit, .lit '-', .digit, .digit, .lit '-', .digit, .digit]

/-- `/(\d{2})-(\d{2})-(\d{4})/` -/
def fmtMdyDash : List ShapeTok :=
  [.digit, .digit, .lit '-', .digit, .digit, .lit '-', .digit, .digit, .digit, .digit]

/-- `/(\d{4})\.(\d{2})\.(\d{2})/` -/
def fmtYmdDot : List ShapeTok :=
  [.digit, .digit, .digit, .digit, .lit '.', .digit, .digit, .lit '.', .digit, .digit]

/-- `/(\d{2})\.(\d{2})\.(\d{4})/` -/
def fmtDmyDot : List ShapeTok :=
  [.digit, .digit, .lit '.', .digit, .digit, .lit '.', .digit, .digit, .digit, .digit]

def dateFormats : List (List ShapeTok) := [fmtYmdDash, fmtMdyDash, fmtYmdDot, fmtDmyDot]

/-- true when some regex of `parseDate`'s format list matches the value. -/
def matchesDateFormat (s : String) : Bool :=
  dateFormats.any (fun f => hasShape f s.data)

def digitVal (c : Char) : Nat := c.toNat - 48

def isLeapYear (y : Nat) : Bool := y % 4 == 0 && (y % 100 != 0 || y % 400 == 0)

def daysInMonth (y m : Nat) : Nat :=
  if m == 2 then (if isLeapYear y then 29 else 28)
  else if m == 4 || m == 6 || m == 9 || m == 11 then 30
  else 31

/-- Model of the composition `new Date(s).toISOString()` restricted to the
ECMAScript Date Time String Format date-only production `YYYY-MM-DD` — the
only part of `Date` string parsing the language standard specifies; all other
strings are implementation-defined and modelled as invalid dates.  A valid
date-only string denotes UTC midnight and `toISOString` reproduces its digits
followed by `T00:00:00.000Z`. -/
def jsDateToISO (s : String) : Option String :=
  match s.data with
  | [y1, y2, y3, y4, '-', m1, m2, '-', d1, d2] =>
    if y1.isDigit && y2.isDigit && y3.isDigit && y4.isDigit &&
        m1.isDigit && m2.isDigit && d1.isDigit && d2.isDigit then
      let y := 1000 * digitVal y1 + 100 * digitVal y2 + 10 * digitVal y3 + digitVal y4
      let m := 10 * digitVal m1 + digitVal m2
      let d := 10 * digitVal d1 + digitVal d2
      if 1 ≤ m && m ≤ 12 && 1 ≤ d && d ≤ daysInMonth y m then
        some (s ++ "T00:00:00.000Z")
      else none
    else none
  | _ => none

/-- `WhoisClient.parseDate`: a falsy (empty) value yields null; otherwise the
four digit patterns are tried in order and, since every iteration evaluates
`new Date` on the same full string, the result is the ISO serialization when
some pattern occurs in the value and `Date` accepts the whole string, else
the original string verbatim. -/
def parseDate (dateString : String) : Option String :=
  if dateString = "" then none
  else if matchesDateFormat dateString then
    some ((jsDateToISO dateString).getD dateString)
  else some dateString

/-! ## WhoisClient text parser (src/lib/whois.js, parseWhoisResponse) -/

namespace WhoisClient

structure WRegistrant where
  organization : Option String := none
  name : Option String := none
  email : Option String := none

structure WContact where
  email : Option String := none

structure WDates where
  created : Option String := none
  expires : Option String := none
  updated : Option String := none

structure WAdditional where
  registrarUrl : Option String := none
  dataValidation : Option String := none

/-- The normalized record shape produced by the WHOIS client. -/
structure WhoisRecord where
  domain : String
  found : Bool
  source : String := "whois"
  rawData : Option String := none
  error : Option String := none
  registrar : Option String := none
  registrant : Option WRegistrant := none
  adminContact : Option WContact := none
  techContact : Option WContact := none
  billingContact : Option WContact := none
  nameservers : List String := []
  status : List String := []
  dates : WDates := {}
  dnssec : Option String := none
  whoisServer : Option String := none
  additionalInfo : Option WAdditional := none

/-- One iteration of the line loop of `parseWhoisResponse`: trim, skip blank
and comment lines, split at the first colon, and route the value through the
key-synonym switch. -/
def parseLine (result : WhoisRecord) (rawLine : String) : WhoisRecord :=
  let line := jsTrim rawLine
  if line == "" || jsStartsWith line "%" || jsStartsWith line ">>" then result
  else
    match jsSplitChar line ':' with
    | [] => result
    | [_] => result
    | k :: rest =>
      let key := jsToLower (jsTrim k)
      let value := jsTrim (jsJoin ":" rest)
      if value == "" then result
      else if key == "registrar" || key == "sponsoring registrar" then
        { result with registrar := some value }
      else if key == "registrant" || key == "registrant organization" ||
          key == "registrant org" then
        let reg := result.registrant.getD {}
        { result with registrant := some { reg with organization := some value } }
      else if key == "registrant name" then
        let reg := result.registrant.getD {}
        { result with registrant := some { reg with name := some value } }
      else if key == "registrant email" then
        let reg := result.registrant.getD {}
        { result with registrant := some { reg with email := some value } }
      else if key == "admin email" || key == "administrative contact email" then
        let c := result.adminContact.getD {}
        { result with adminContact := some { c with email := some value } }
      else if key == "tech email" || key == "technical contact email" then
        let c := result.techContact.getD {}
        { result with techContact := some { c with email := some value } }
      else if key == "name server" || key == "nameserver" || key == "nserver" then
        let v := jsToLower value
        if result.nameservers.contains v then result
        else { result with nameservers := result.nameservers ++ [v] }
      else if key == "domain status" || key == "status" then
        { result with status := result.status ++ [value] }
      else if key == "creation date" || key == "created" || key == "registered" then
        { result with dates := { result.dates with created := parseDate value } }
      else if key == "expiry date" || key == "expires" || key == "expiration date" then
        { result with dates := { result.dates with expires := parseDate value } }
      else if key == "updated date" || key == "last modified" || key == "changed" then
        { result with dates := { result.dates with updated := parseDate value } }
      else if key == "dnssec" then
        { result with dnssec := some (jsToLower value) }
      else result

/-- First cleanup statement of `parseWhoisResponse`: a registrant object with
no keys is reset to null. -/
def cleanupRegistrant (r : WhoisRecord) : WhoisRecord :=
  match r.registrant with
  | some reg =>
    if reg.organization.isNone && reg.name.isNone && reg.email.isNone then
      { r with registrant := none }
    else r
  | none => r

/-- Second cleanup statement: an admin contact with no keys is reset. -/
def cleanupAdmin (r : WhoisRecord) : WhoisRecord :=
  match r.adminContact with
  | some c => if c.email.isNone then { r with adminContact := none } else r
  | none => r

/-- Third cleanup statement: a tech contact with no keys is reset. -/
def cleanupTech (r : WhoisRecord) : WhoisRecord :=
  match r.techContact with
  | some c => if c.email.isNone then { r with techContact := none } else r
  | none => r

/-- Final cleanup of `parseWhoisResponse`: contact objects that received no
key are reset to null (the three statements in source order). -/
def cleanupEmptyContacts (r : WhoisRecord) : WhoisRecord :=
  cleanupTech (cleanupAdmin (cleanupRegistrant r))

/-- `WhoisClient.parseWhoisResponse`: a falsy (empty) payload produces the
not-found record; any other payload produces a `found: true` record filled by
the line loop. -/
def parseWhoisResponse (whoisText : String) (domain : String) : WhoisRecord :=
  if whoisText = "" then
    { domain := domain, found := false, error := some "No WHOIS data available" }
  else
    cleanupEmptyContacts
      ((jsSplitChar whoisText '\n').foldl parseLine
        { domain := domain, found := true, rawData := some whoisText })

/-- The candidate DomainDetails API endpoints of `queryWhoisServer`. -/
def domainDetailsApiUrls (domain : String) : List String :=
  ["https://api.domaindetails.com/api/whois?domain=" ++ domain,
   "http://localhost:3001/api/whois?domain=" ++ domain]

/-- The synthetic descriptive message `queryWhoisServer` substitutes when
every DomainDetails API candidate fails (src/lib/whois.js lines 71-76). -/
def apiFailureText (domain : String) : String :=
  "% WHOIS information not available via DomainDetails API for " ++ domain ++
  "\n" ++ "% Domain: " ++ domain ++
  "\n" ++ "% Attempted servers: " ++ jsJoin ", " (domainDetailsApiUrls domain) ++
  "\n" ++ "% Status: API lookup failed"

end WhoisClient

set_option maxRecDepth 400000

/-! ## Claims C1 and C9 -/

theorem parseLine_skip (r : WhoisClient.WhoisRecord) (l : String)
    (h : (jsTrim l == "" || jsStartsWith (jsTrim l) "%" ||
      jsStartsWith (jsTrim l) ">>") = true) :
    WhoisClient.parseLine r l = r := by
  simp only [WhoisClient.parseLine]
  rw [if_pos h]

theorem parseLine_found (r : WhoisClient.WhoisRecord) (l : String) :
    (WhoisClient.parseLine r l).found = r.found := by
  simp only [WhoisClient.parseLine]
  rcases jsSplitChar (jsTrim l) ':' with _ | ⟨k, _ | ⟨x, rest⟩⟩ <;>
    simp only [apply_ite WhoisClient.WhoisRecord.found, ite_self]

theorem cleanupRegistrant_found (r : WhoisClient.WhoisRecord) :
    (WhoisClient.cleanupRegistrant r).found = r.found := by
  unfold WhoisClient.cleanupRegistrant
  rcases r.registrant with _ | reg <;>
    simp only [apply_ite WhoisClient.WhoisRecord.found, ite_self]

theorem cleanupAdmin_found (r : WhoisClient.WhoisRecord) :
    (WhoisClient.cleanupAdmin r).found = r.found := by
  unfold WhoisClient.cleanupAdmin
  rcases r.adminContact with _ | c <;>
    simp only [apply_ite WhoisClient.WhoisRecord.found, ite_self]

theorem cleanupTech_found (r : WhoisClient.WhoisRecord) :
    (WhoisClient.cleanupTech r).found = r.found := by
  unfold WhoisClient.cleanupTech
  rcases r.techContact with _ | c <;>
    simp only [apply_ite WhoisClient.WhoisRecord.found, ite_self]

theorem cleanupEmptyContacts_found (r : WhoisClient.WhoisRecord) :
    (WhoisClient.cleanupEmptyContacts r).found = r.found := by
  unfold WhoisClient.cleanupEmptyContacts
  rw [cleanupTech_found, cleanupAdmin_found, cleanupRegistrant_found]

theorem foldl_parseLine_skip (lines : List String) (init : WhoisClient.WhoisRecord)
    (h : ∀ l ∈ lines, (jsTrim l == "" || jsStartsWith (jsTrim l) "%" ||
      jsStartsWith (jsTrim l) ">>") = true) :
    lines.foldl WhoisClient.parseLine init = init := by
  induction lines with
  | nil => rfl
  | cons a t ih =>
    simp only [List.foldl_cons]
    rw [parseLine_skip init a (h a (by simp))]
    exact ih (fun l hl => h l (by simp [hl]))

theorem foldl_parseLine_found (lines : List String) (init : WhoisClient.WhoisRecord) :
    (lines.foldl WhoisClient.parseLine init).found = init.found := by
  induction lines generalizing init with
  | nil => rfl
  | cons a t ih =>
    simp only [List.foldl_cons]
    rw [ih (WhoisClient.parseLine init a), parseLine_found]

/-- C1 counterexample: the synthetic "not available" payload substituted when
every backend candidate fails consists only of `%`-comment lines — no field
is extractable — yet `parseWhoisResponse` returns `found: true` for it,
contradicting the claimed `found: false`. -/
theorem parseWhois_commentOnly_counterexample :
    (WhoisClient.parseWhoisResponse (WhoisClient.apiFailureText "example.com")
      "example.com").found = true := by decide

/-- C1 (amended): `parseWhoisResponse` produces `found: false` only for an
empty (falsy) payload; every non-empty payload yields `found: true`, and a
payload consisting solely of blank and comment lines yields the plain record
whose extracted fields are all empty (no registrar, contacts, nameservers,
status, dates or dnssec). -/
theorem parseWhois_no_fields_found_true (text domain : String)
    (hne : text ≠ "")
    (hcomment : ∀ l ∈ jsSplitChar text '\n',
      (jsTrim l == "" || jsStartsWith (jsTrim l) "%" ||
        jsStartsWith (jsTrim l) ">>") = true) :
    WhoisClient.parseWhoisResponse text domain =
      { domain := domain, found := true, rawData := some text } ∧
    (∀ t d : String, t ≠ "" → (WhoisClient.parseWhoisResponse t d).found = true) ∧
    (WhoisClient.parseWhoisResponse "" domain).found = false := by
  refine ⟨?_, ?_, rfl⟩
  · unfold WhoisClient.parseWhoisResponse
    rw [if_neg hne, foldl_parseLine_skip _ _ hcomment]
    rfl
  · intro t d ht
    unfold WhoisClient.parseWhoisResponse
    rw [if_neg ht, cleanupEmptyContacts_found, foldl_parseLine_found]

/-- Witness for C1's amended theorem at the synthetic payload itself. -/
theorem parseWhois_no_fields_found_true_witness :
    WhoisClient.parseWhoisResponse (WhoisClient.apiFailureText "example.com")
      "example.com" =
      { domain := "example.com", found := true,
        rawData := some (WhoisClient.apiFailureText "example.com") } ∧
    (WhoisClient.parseWhoisResponse "" "example.com").found = false := by
  obtain ⟨h1, _, h3⟩ := parseWhois_no_fields_found_true
    (WhoisClient.apiFailureText "example.com") "example.com" (by decide) (by decide)
  exact ⟨h1, h3⟩

/-- C9 counterexample: `"99-99-2099"` matches the second digit pattern
(`\d{2}-\d{2}-\d{4}`), yet `parseDate` returns it verbatim (month 99 is not a
date any `Date` engine accepts), not an ISO-8601 serialization — the output
does not even contain `Z` or `T`. -/
theorem parseDate_pattern_counterexample :
    matchesDateFormat "99-99-2099" = true ∧
    parseDate "99-99-2099" = some "99-99-2099" ∧
    jsIncludesChar "99-99-2099" 'Z' = false ∧
    jsIncludesChar "99-99-2099" 'T' = false := by decide

/-- C9 (amended): the normalizer keeps the original string verbatim whenever
no digit pattern occurs in it; when the value is exactly an ECMAScript
`YYYY-MM-DD` date with month and day in range it becomes the UTC-midnight
ISO-8601 form; and the raw WHOIS line `Expiry date: 2025-08-13` parses to
`dates.expires = "2025-08-13T00:00:00.000Z"`.  (A pattern occurrence alone
does not guarantee conversion: `Date` must also accept the full string.) -/
theorem parseDate_best_effort :
    (∀ s, s ≠ "" → matchesDateFormat s = false → parseDate s = some s) ∧
    (∀ y1 y2 y3 y4 m1 m2 d1 d2 : Char,
      y1.isDigit = true → y2.isDigit = true → y3.isDigit = true →
      y4.isDigit = true → m1.isDigit = true → m2.isDigit = true →
      d1.isDigit = true → d2.isDigit = true →
      1 ≤ 10 * digitVal m1 + digitVal m2 →
      10 * digitVal m1 + digitVal m2 ≤ 12 →
      1 ≤ 10 * digitVal d1 + digitVal d2 →
      10 * digitVal d1 + digitVal d2 ≤
        daysInMonth
          (1000 * digitVal y1 + 100 * digitVal y2 + 10 * digitVal y3 + digitVal y4)
          (10 * digitVal m1 + digitVal m2) →
      parseDate (String.mk [y1, y2, y3, y4, '-', m1, m2, '-', d1, d2]) =
        some (String.mk [y1, y2, y3, y4, '-', m1, m2, '-', d1, d2] ++
          "T00:00:00.000Z")) ∧
    (WhoisClient.parseWhoisResponse "Expiry date: 2025-08-13" "example.com").dates.expires =
      some "2025-08-13T00:00:00.000Z" := by
  refine ⟨?_, ?_, by decide⟩
  · intro s hne hno
    unfold parseDate
    rw [if_neg hne, hno]
    rfl
  · intro y1 y2 y3 y4 m1 m2 d1 d2 hy1 hy2 hy3 hy4 hm1 hm2 hd1 hd2 hmlo hmhi hdlo hdhi
    have hne : String.mk [y1, y2, y3, y4, '-', m1, m2, '-', d1, d2] ≠ "" := by
      intro h
      have : ([y1, y2, y3, y4, '-', m1, m2, '-', d1, d2] : List Char) = [] := by
        have hd := congrArg String.data h
        simp only at hd
        exact hd
      simp at this
    have hfmt : matchesDateFormat (String.mk [y1, y2, y3, y4, '-', m1, m2, '-', d1, d2]) = true := by
      unfold matchesDateFormat dateFormats fmtYmdDash
      simp [hasShape, shapeAt, hy1, hy2, hy3, hy4, hm1, hm2, hd1, hd2]
    have hiso : jsDateToISO (String.mk [y1, y2, y3, y4, '-', m1, m2, '-', d1, d2]) =
        some (String.mk [y1, y2, y3, y4, '-', m1, m2, '-', d1, d2] ++ "T00:00:00.000Z") := by
      unfold jsDateToISO
      simp [hy1, hy2, hy3, hy4, hm1, hm2, hd1, hd2, hmlo, hmhi, hdlo, hdhi]
    unfold parseDate
    rw [if_neg hne, hfmt, hiso]
    rfl

/-- Witness for C9's amended theorem: a pattern-free string kept verbatim and
the valid date `2025-08-13` converted to ISO form. -/
theorem parseDate_best_effort_witness :
    parseDate "pending renewal" = some "pending renewal" ∧
    parseDate "2025-08-13" = some "2025-08-13T00:00:00.000Z" := by
  refine ⟨parseDate_best_effort.1 "pending renewal" (by decide) (by decide), ?_⟩
  have h := parseDate_best_effort.2.1 '2' '0' '2' '5' '0' '8' '1' '3'
    (by decide) (by decide) (by decide) (by decide) (by decide) (by decide)
    (by decide) (by decide) (by decide) (by decide) (by decide) (by decide)
  simpa using h

/-! ## enrichFromRawData (src/lib/whois.js lines 117-262)

The regular expressions of the enrichment pass are implemented as concrete
matchers over character lists, with JavaScript backtracking semantics
(leftmost match, greedy `\s*`, greedy `(.+)`, lazy `(.+?)` / `([\s\S]*?)`).
Each matcher returns the first capture group, as `match[1]` does. -/

/-- Case-insensitive character comparison (regex `/i` flag). -/
def ciEq (a b : Char) : Bool := a.toLower == b.toLower

/-- Match a literal case-insensitively at the head; returns the rest. -/
def matchLitCI : List Char → List Char → Option (List Char)
  | [], s => some s
  | _ :: _, [] => none
  | p :: ps, c :: cs => if ciEq p c then matchLitCI ps cs else none

/-- Leftmost-match regex search: try the single-position matcher at every
start position, earliest success first. -/
def searchAt (k : List Char → Option (List Char)) : List Char → Option (List Char)
  | [] => k []
  | c :: cs =>
    match k (c :: cs) with
    | some r => some r
    | none => searchAt k cs

/-- Match `\s*(.+)` at a position: the whitespace run is consumed greedily,
backing off into trailing space-like (non-line-terminator) characters only
when nothing remains for `(.+)`; the capture is the maximal run of
non-line-terminator characters. -/
def wsStarDotPlus (s : List Char) : Option (List Char) :=
  match s.dropWhile jsWsChar with
  | c :: cs => some ((c :: cs).takeWhile jsDotChar)
  | [] =>
    match (s.takeWhile jsWsChar).reverse.dropWhile (fun c => !jsDotChar c) with
    | c :: _ => some [c]
    | [] => none

/-- `/label\s*(.+)/i` applied via `String.prototype.match`: first capture of
the leftmost match. -/
def rxLine (label : String) (text : String) : Option String :=
  (searchAt (fun s => (matchLitCI label.data s).bind wsStarDotPlus) text.data).map
    String.mk

/-- Greedy `\s*` followed by a body that may fail: the longest whitespace
split is preferred, backing off one character at a time. -/
def greedyWsThen (body : List Char → Option (List Char)) (s : List Char) :
    Option (List Char) :=
  ((List.range ((s.takeWhile jsWsChar).length + 1)).reverse).findSome?
    (fun i => body (s.drop i))

/-- Lazy `(.+?)` until a stop position: at least one non-line-terminator
character, extended one character at a time until the stop matches. -/
def lazyDotPlusGo (stop : List Char → Bool) : List Char → List Char →
    Option (List Char)
  | acc, [] => if stop [] then some acc.reverse else none
  | acc, c :: cs =>
    if stop (c :: cs) then some acc.reverse
    else if jsDotChar c then lazyDotPlusGo stop (c :: acc) cs
    else none

def lazyDotPlus (stop : List Char → Bool) (s : List Char) : Option (List Char) :=
  match s with
  | c :: cs => if jsDotChar c then lazyDotPlusGo stop [c] cs else none
  | [] => none

/-- Lazy `([\s\S]*?)` until a stop position (may capture nothing). -/
def lazyAnyStar (stop : List Char → Bool) : List Char → Option (List Char)
  | [] => if stop [] then some [] else none
  | c :: cs =>
    if stop (c :: cs) then some []
    else (lazyAnyStar stop cs).map (fun r => c :: r)

/-- The terminator `(?:\[|URL:|$)` of the first registrar pattern. -/
def registrarStop (s : List Char) : Bool :=
  match s with
  | [] => true
  | c :: cs => c == '[' || (matchLitCI "URL:".data (c :: cs)).isSome

/-- `/Registrar:\s*(.+?)(?:\[|URL:|$)/i`. -/
def rxRegistrarLazy (text : String) : Option String :=
  (searchAt (fun s => (matchLitCI "Registrar:".data s).bind
    (greedyWsThen (lazyDotPlus registrarStop))) text.data).map String.mk

/-- The terminator `(?:\n\s*\n|\n\s*WHOIS|$)` of the nameserver block
patterns: end of input, or a newline followed (through whitespace) by
another newline or by `WHOIS` (case-insensitively). -/
def nsBlockEnd (s : List Char) : Bool :=
  match s with
  | [] => true
  | c :: t =>
    c == '\n' &&
      ((t.takeWhile jsWsChar).contains '\n' ||
        (matchLitCI "WHOIS".data (t.dropWhile jsWsChar)).isSome)

/-- The label `Name servers?:` (optional plural `s`). -/
def nsLabelTry (s : List Char) : Option (List Char) :=
  (matchLitCI "Name server".data s).bind (fun rest =>
    match matchLitCI "s:".data rest with
    | some r => some r
    | none => matchLitCI ":".data rest)

/-- `/Name servers?:\s*([\s\S]*?)(?:\n\s*\n|\n\s*WHOIS|$)/i`. -/
def rxNameServers (text : String) : Option String :=
  (searchAt (fun s => (nsLabelTry s).bind (greedyWsThen (lazyAnyStar nsBlockEnd)))
    text.data).map String.mk

/-- `/DNS:\s*([\s\S]*?)(?:\n\s*\n|\n\s*WHOIS|$)/i`. -/
def rxDnsBlock (text : String) : Option String :=
  (searchAt (fun s => (matchLitCI "DNS:".data s).bind
    (greedyWsThen (lazyAnyStar nsBlockEnd))) text.data).map String.mk

/-- The terminator `(?:\n\s*\n|\n\s*[A-Z])` of the data-validation pattern
(`[A-Z]` matches both cases under `/i`). -/
def validationEnd (s : List Char) : Bool :=
  match s with
  | c :: t =>
    c == '\n' &&
      ((t.takeWhile jsWsChar).contains '\n' ||
        (match t.dropWhile jsWsChar with
         | d :: _ => d.isAlpha
         | [] => false))
  | [] => false

/-- `/Data validation:\s*([\s\S]*?)(?:\n\s*\n|\n\s*[A-Z])/i`. -/
def rxValidation (text : String) : Option String :=
  (searchAt (fun s => (matchLitCI "Data validation:".data s).bind
    (greedyWsThen (lazyAnyStar validationEnd))) text.data).map String.mk

/-- The capture attempt of `/URL:\s*(https?:\/\/[^\s\r\n]+)/i` at one start
position (the `\s*` cannot usefully backtrack here because the capture must
begin with a non-whitespace `h`). -/
def urlTry (s : List Char) : Option (List Char) :=
  (matchLitCI "URL:".data s).bind (fun rest =>
    let afterWs := rest.dropWhile jsWsChar
    (matchLitCI "http".data afterWs).bind (fun r3 =>
      let cont : Option (Nat × List Char) :=
        match r3 with
        | c :: cs =>
          if ciEq 's' c then
            match matchLitCI "://".data cs with
            | some r => some (8, r)
            | none => (matchLitCI "://".data r3).map (fun r => (7, r))
          else (matchLitCI "://".data r3).map (fun r => (7, r))
        | [] => (matchLitCI "://".data r3).map (fun r => (7, r))
      cont.bind (fun pr =>
        let tail := pr.2.takeWhile (fun c => !jsWsChar c)
        if tail.isEmpty then none else some (afterWs.take pr.1 ++ tail))))

/-- `/URL:\s*(https?:\/\/[^\s\r\n]+)/i`. -/
def rxUrl (text : String) : Option String :=
  (searchAt urlTry text.data).map String.mk

namespace WhoisClient

/-- `datePatterns.created` of `enrichFromRawData`, in source order. -/
def createdPatterns : List (String → Option String) :=
  [rxLine "Registered on:", rxLine "Creation date:", rxLine "Created:",
   rxLine "Registration date:"]

/-- `datePatterns.expires`. -/
def expiresPatterns : List (String → Option String) :=
  [rxLine "Expiry date:", rxLine "Expires:", rxLine "Expiration date:",
   rxLine "Registry Expiry Date:"]

/-- `datePatterns.updated`. -/
def updatedPatterns : List (String → Option String) :=
  [rxLine "Last updated:", rxLine "Last modified:", rxLine "Updated date:",
   rxLine "Last Changed:"]

/-- `nameserverPatterns`. -/
def nameserverPatterns : List (String → Option String) :=
  [rxNameServers, rxDnsBlock]

/-- `statusPatterns`. -/
def statusPatterns : List (String → Option String) :=
  [rxLine "Registration status:", rxLine "Status:", rxLine "Domain status:"]

/-- `registrarPatterns`. -/
def registrarPatterns : List (String → Option String) :=
  [rxRegistrarLazy, rxLine "Sponsoring Registrar:"]

/-- `registrantPatterns`, each tagged with whether its source text contains
`Organization` (which routes the value into `organization` vs `name`). -/
def registrantPatterns : List (Bool × (String → Option String)) :=
  [(false, rxLine "Registrant:"), (true, rxLine "Registrant Organization:"),
   (false, rxLine "Registrant Name:")]

/-- `/Whois Server:\s*(.+)/i`. -/
def rxWhoisServer : String → Option String := rxLine "Whois Server:"

/-- "first matching pattern wins": the capture of the first pattern in the
ordered list that matches; later patterns are never consulted. -/
def firstCapture (pats : List (String → Option String)) (raw : String) :
    Option String :=
  pats.findSome? (fun p => p raw)

/-- One date field of the enrichment date loop: filled from the first
matching pattern only when the field is still empty (falsy). -/
def dateFieldAfter (cur : Option String) (pats : List (String → Option String))
    (raw : String) : Option String :=
  if jsTruthyStr cur then cur
  else
    match firstCapture pats raw with
    | some cap => some (jsTrim cap)
    | none => cur

/-- `line.split(/\s+/)[0]`: a leading whitespace character produces an empty
first element, otherwise the first maximal non-whitespace run. -/
def jsSplitWsHead (l : String) : String :=
  match l.data with
  | [] => ""
  | c :: _ =>
    if jsWsChar c then "" else String.mk (l.data.takeWhile (fun ch => !jsWsChar ch))

/-- The nameserver candidate pipeline applied to a matched block: split into
lines, trim, drop blank lines and lines starting with `-` or `This`, keep the
first whitespace-separated token, keep tokens containing `.` of length > 3,
and keep at most the first 10. -/
def nsCandidates (block : String) : List String :=
  (((((jsSplitChar block '\n').map jsTrim).filter
      (fun l => l != "" && !(jsStartsWith l "-") && !(jsStartsWith l "This"))).map
      jsSplitWsHead).filter
      (fun ns => ns != "" && jsIncludesChar ns '.' && 3 < jsLength ns)).take 10

/-- The nameserver pattern loop: the first pattern whose match yields a
non-empty candidate list wins (a matching pattern with no usable candidates
does not stop the loop). -/
def extractNameservers (raw : String) : Option (List String) :=
  nameserverPatterns.findSome? (fun p =>
    (p raw).bind (fun block =>
      let ns := nsCandidates block
      if ns.isEmpty then none else some ns))

/-- Nameserver field after enrichment: replaced only when currently empty and
a pattern yields candidates. -/
def nsAfter (cur : List String) (raw : String) : List String :=
  if cur.isEmpty then (extractNameservers raw).getD cur else cur

/-- Status field after enrichment: the first matching status pattern's
trimmed capture is appended unless already present — this block runs whether
or not the status list is already populated. -/
def statusAfter (cur : List String) (raw : String) : List String :=
  match firstCapture statusPatterns raw with
  | some cap =>
    let statusText := jsTrim cap
    if cur.contains statusText then cur else cur ++ [statusText]
  | none => cur

/-- Registrar field after enrichment: filled from the first matching pattern
only when still empty (falsy). -/
def registrarAfter (cur : Option String) (raw : String) : Option String :=
  if jsTruthyStr cur then cur
  else
    match firstCapture registrarPatterns raw with
    | some cap => some (jsTrim cap)
    | none => cur

/-- Registrant field after enrichment: when some pattern matches, the object
is created if missing, and the captured value is written into `organization`
or `name` only when both are still empty (falsy). -/
def registrantAfter (cur : Option WRegistrant) (raw : String) :
    Option WRegistrant :=
  match registrantPatterns.findSome? (fun bp => (bp.2 raw).map (fun c => (bp.1, c))) with
  | some pr =>
    let reg := cur.getD {}
    if !jsTruthyStr reg.name && !jsTruthyStr reg.organization then
      let value := jsTrim pr.2
      if pr.1 then some { reg with organization := some value }
      else some { reg with name := some value }
    else some reg
  | none => cur

/-- WHOIS-server field after enrichment: filled only when still empty. -/
def whoisServerAfter (cur : Option String) (raw : String) : Option String :=
  if jsTruthyStr cur then cur
  else
    match rxWhoisServer raw with
    | some cap => some (jsTrim cap)
    | none => cur

/-- `additionalInfo` after enrichment: rebuilt from the raw text alone
(`result.additionalInfo = {}` resets it first), then deleted when empty. -/
def additionalAfter (raw : String) : Option WAdditional :=
  let u := rxUrl raw
  let v := (rxValidation raw).map jsTrim
  if u.isNone && v.isNone then none
  else some { registrarUrl := u, dataValidation := v }

/-- `WhoisClient.enrichFromRawData`.  The source's blocks run sequentially
but each reads only the field it writes (plus the raw text), so the record
update is their simultaneous composition. -/
def enrichFromRawData (r : WhoisRecord) (raw : String) : WhoisRecord :=
  { r with
    dates :=
      { created := dateFieldAfter r.dates.created createdPatterns raw,
        expires := dateFieldAfter r.dates.expires expiresPatterns raw,
        updated := dateFieldAfter r.dates.updated updatedPatterns raw },
    nameservers := nsAfter r.nameservers raw,
    status := statusAfter r.status raw,
    registrar := registrarAfter r.registrar raw,
    registrant := registrantAfter r.registrant raw,
    whoisServer := whoisServerAfter r.whoisServer raw,
    additionalInfo := additionalAfter raw }

end WhoisClient

/-! ## Claims C6 and C10 -/

/-- A fully populated record (all enrichable fields non-empty) used to
exercise the enrichment pass. -/
def populatedRecordC6 : WhoisClient.WhoisRecord :=
  { domain := "x.com", found := true, status := ["ok"],
    dates := { created := some "2024-01-01", expires := some "2026-01-01",
               updated := some "2025-01-01" },
    nameservers := ["ns1.x.com"], registrar := some "Acme Registrar",
    registrant := some { name := some "John" }, whoisServer := some "whois.x.com" }

/-- C6 counterexample: with the status list already populated (`["ok"]`) the
enrichment pass still consults the status patterns and appends the first
match, changing the already-populated field — contradicting the claim that
every listed field is written only when still empty. -/
theorem enrich_status_append_counterexample :
    populatedRecordC6.status = ["ok"] ∧
    (WhoisClient.enrichFromRawData populatedRecordC6 "Status: clientHold").status =
      ["ok", "clientHold"] := by decide

theorem dateFieldAfter_truthy (cur : Option String)
    (pats : List (String → Option String)) (raw : String)
    (h : jsTruthyStr cur = true) :
    WhoisClient.dateFieldAfter cur pats raw = cur := by
  unfold WhoisClient.dateFieldAfter
  rw [if_pos h]

theorem dateFieldAfter_none (pats : List (String → Option String)) (raw : String) :
    WhoisClient.dateFieldAfter none pats raw =
      (WhoisClient.firstCapture pats raw).map jsTrim := by
  unfold WhoisClient.dateFieldAfter
  rw [if_neg (by decide)]
  cases WhoisClient.firstCapture pats raw <;> rfl

theorem statusAfter_extends (cur : List String) (raw : String) :
    ∃ tail, WhoisClient.statusAfter cur raw = cur ++ tail := by
  unfold WhoisClient.statusAfter
  cases WhoisClient.firstCapture WhoisClient.statusPatterns raw with
  | none => exact ⟨[], by simp⟩
  | some cap =>
    by_cases hc : cur.contains (jsTrim cap) = true
    · refine ⟨[], ?_⟩
      show (if cur.contains (jsTrim cap) = true then cur else cur ++ [jsTrim cap]) =
        cur ++ []
      rw [if_pos hc, List.append_nil]
    · refine ⟨[jsTrim cap], ?_⟩
      show (if cur.contains (jsTrim cap) = true then cur else cur ++ [jsTrim cap]) =
        cur ++ [jsTrim cap]
      rw [if_neg hc]

/-- C6 (amended): the enrichment pass fills created/expires/updated dates,
nameservers, registrar and WHOIS server only when the field is still empty
(absent or empty-string), taking the first matching pattern's capture
(nameservers: the first pattern yielding a non-empty candidate list); a
registrant with a non-empty name or organization is left unchanged; all
fields the pass does not target are unchanged.  However the status block
runs unconditionally — its first match is appended (when not already
present) even to a populated status list — and the registrar-URL /
data-validation block is rebuilt from the raw text alone. -/
theorem enrichFromRawData_only_empty (r : WhoisClient.WhoisRecord) (raw : String) :
    (jsTruthyStr r.dates.created = true →
      (WhoisClient.enrichFromRawData r raw).dates.created = r.dates.created) ∧
    (r.dates.created = none →
      (WhoisClient.enrichFromRawData r raw).dates.created =
        (WhoisClient.firstCapture WhoisClient.createdPatterns raw).map jsTrim) ∧
    (jsTruthyStr r.dates.expires = true →
      (WhoisClient.enrichFromRawData r raw).dates.expires = r.dates.expires) ∧
    (r.dates.expires = none →
      (WhoisClient.enrichFromRawData r raw).dates.expires =
        (WhoisClient.firstCapture WhoisClient.expiresPatterns raw).map jsTrim) ∧
    (jsTruthyStr r.dates.updated = true →
      (WhoisClient.enrichFromRawData r raw).dates.updated = r.dates.updated) ∧
    (r.dates.updated = none →
      (WhoisClient.enrichFromRawData r raw).dates.updated =
        (WhoisClient.firstCapture WhoisClient.updatedPatterns raw).map jsTrim) ∧
    (r.nameservers ≠ [] →
      (WhoisClient.enrichFromRawData r raw).nameservers = r.nameservers) ∧
    (r.nameservers = [] →
      (WhoisClient.enrichFromRawData r raw).nameservers =
        (WhoisClient.extractNameservers raw).getD []) ∧
    (∃ tail, (WhoisClient.enrichFromRawData r raw).status = r.status ++ tail) ∧
    (WhoisClient.firstCapture WhoisClient.statusPatterns raw = none →
      (WhoisClient.enrichFromRawData r raw).status = r.status) ∧
    (jsTruthyStr r.registrar = true →
      (WhoisClient.enrichFromRawData r raw).registrar = r.registrar) ∧
    (r.registrar = none →
      (WhoisClient.enrichFromRawData r raw).registrar =
        (WhoisClient.firstCapture WhoisClient.registrarPatterns raw).map jsTrim) ∧
    (∀ reg, r.registrant = some reg →
      (jsTruthyStr reg.name || jsTruthyStr reg.organization) = true →
      (WhoisClient.enrichFromRawData r raw).registrant = r.registrant) ∧
    (jsTruthyStr r.whoisServer = true →
      (WhoisClient.enrichFromRawData r raw).whoisServer = r.whoisServer) ∧
    (r.whoisServer = none →
      (WhoisClient.enrichFromRawData r raw).whoisServer =
        (WhoisClient.rxWhoisServer raw).map jsTrim) ∧
    ((WhoisClient.enrichFromRawData r raw).additionalInfo =
      WhoisClient.additionalAfter raw) ∧
    ((WhoisClient.enrichFromRawData r raw).domain = r.domain ∧
      (WhoisClient.enrichFromRawData r raw).found = r.found ∧
      (WhoisClient.enrichFromRawData r raw).source = r.source ∧
      (WhoisClient.enrichFromRawData r raw).rawData = r.rawData ∧
      (WhoisClient.enrichFromRawData r raw).error = r.error ∧
      (WhoisClient.enrichFromRawData r raw).dnssec = r.dnssec ∧
      (WhoisClient.enrichFromRawData r raw).adminContact = r.adminContact ∧
      (WhoisClient.enrichFromRawData r raw).techContact = r.techContact ∧
      (WhoisClient.enrichFromRawData r raw).billingContact = r.billingContact) := by
  refine ⟨?_, ?_, ?_, ?_, ?_, ?_, ?_, ?_, ?_, ?_, ?_, ?_, ?_, ?_, ?_, rfl,
    rfl, rfl, rfl, rfl, rfl, rfl, rfl, rfl, rfl⟩
  · exact fun h => dateFieldAfter_truthy _ _ _ h
  · intro h
    show WhoisClient.dateFieldAfter r.dates.created _ raw = _
    rw [h, dateFieldAfter_none]
  · exact fun h => dateFieldAfter_truthy _ _ _ h
  · intro h
    show WhoisClient.dateFieldAfter r.dates.expires _ raw = _
    rw [h, dateFieldAfter_none]
  · exact fun h => dateFieldAfter_truthy _ _ _ h
  · intro h
    show WhoisClient.dateFieldAfter r.dates.updated _ raw = _
    rw [h, dateFieldAfter_none]
  · intro h
    show WhoisClient.nsAfter r.nameservers raw = r.nameservers
    unfold WhoisClient.nsAfter
    rcases hn : r.nameservers with _ | ⟨a, t⟩
    · exact absurd hn h
    · rfl
  · intro h
    show WhoisClient.nsAfter r.nameservers raw = _
    rw [h]
    rfl
  · exact statusAfter_extends r.status raw
  · intro h
    show WhoisClient.statusAfter r.status raw = r.status
    unfold WhoisClient.statusAfter
    rw [h]
  · intro h
    show WhoisClient.registrarAfter r.registrar raw = r.registrar
    unfold WhoisClient.registrarAfter
    rw [if_pos h]
  · intro h
    show WhoisClient.registrarAfter r.registrar raw = _
    unfold WhoisClient.registrarAfter
    rw [h, if_neg (by decide)]
    cases WhoisClient.firstCapture WhoisClient.registrarPatterns raw <;> rfl
  · intro reg hreg htr
    show WhoisClient.registrantAfter r.registrant raw = r.registrant
    unfold WhoisClient.registrantAfter
    rw [hreg]
    cases hfs : WhoisClient.registrantPatterns.findSome?
        (fun bp => (bp.2 raw).map (fun c => (bp.1, c))) with
    | none => rfl
    | some pr =>
      have hor : jsTruthyStr reg.name = true ∨ jsTruthyStr reg.organization = true := by
        simpa using htr
      have hguard : (!jsTruthyStr reg.name && !jsTruthyStr reg.organization) = false := by
        rcases hor with h | h <;> simp [h]
      simp only [Option.getD_some]
      rw [hguard]
      rfl
  · intro h
    show WhoisClient.whoisServerAfter r.whoisServer raw = r.whoisServer
    unfold WhoisClient.whoisServerAfter
    rw [if_pos h]
  · intro h
    show WhoisClient.whoisServerAfter r.whoisServer raw = _
    unfold WhoisClient.whoisServerAfter
    rw [h, if_neg (by decide)]
    cases WhoisClient.rxWhoisServer raw <;> rfl

/-- Witness for C6's amended theorem at the fully populated record: the
populated date, registrar and registrant fields survive enrichment. -/
theorem enrichFromRawData_only_empty_witness :
    (WhoisClient.enrichFromRawData populatedRecordC6 "Status: clientHold").registrar =
      populatedRecordC6.registrar ∧
    (WhoisClient.enrichFromRawData populatedRecordC6 "Status: clientHold").dates.created =
      populatedRecordC6.dates.created ∧
    (WhoisClient.enrichFromRawData populatedRecordC6 "Status: clientHold").registrant =
      populatedRecordC6.registrant := by
  obtain ⟨h1, _, _, _, _, _, _, _, _, _, h11, _, h13, _⟩ :=
    enrichFromRawData_only_empty populatedRecordC6 "Status: clientHold"
  exact ⟨h11 (by decide), h1 (by decide),
    h13 { name := some "John" } rfl (by decide)⟩

theorem findSome_mem {α β : Type} (g : α → Option β) (l : List α) (b : β)
    (h : l.findSome? g = some b) : ∃ a ∈ l, g a = some b := by
  induction l with
  | nil => simp [List.findSome?_nil] at h
  | cons x t ih =>
    rw [List.findSome?_cons] at h
    cases hx : g x with
    | some v =>
      rw [hx] at h
      exact ⟨x, by simp, by rw [hx]; exact h⟩
    | none =>
      rw [hx] at h
      obtain ⟨a, ha, hg⟩ := ih h
      exact ⟨a, by simp [ha], hg⟩

theorem nsCandidates_le_ten (block : String) :
    (WhoisClient.nsCandidates block).length ≤ 10 ∧
    ∀ x ∈ WhoisClient.nsCandidates block,
      jsIncludesChar x '.' = true ∧ 3 < jsLength x := by
  constructor
  · unfold WhoisClient.nsCandidates
    exact List.length_take_le 10 _
  · intro x hx
    unfold WhoisClient.nsCandidates at hx
    have hx2 := List.mem_of_mem_take hx
    have hp := List.of_mem_filter hx2
    simp only [Bool.and_eq_true, decide_eq_true_eq] at hp
    exact ⟨hp.1.2, hp.2⟩

theorem extractNameservers_cases (raw : String) (ns : List String)
    (h : WhoisClient.extractNameservers raw = some ns) :
    ∃ block, ns = WhoisClient.nsCandidates block := by
  unfold WhoisClient.extractNameservers at h
  obtain ⟨p, _, hp⟩ := findSome_mem _ _ _ h
  cases hpr : p raw with
  | none => rw [hpr] at hp; simp at hp
  | some block =>
    rw [hpr] at hp
    dsimp only [Option.bind] at hp
    by_cases he : (WhoisClient.nsCandidates block).isEmpty = true
    · rw [if_pos he] at hp
      simp at hp
    · rw [if_neg he] at hp
      exact ⟨block, (Option.some_inj.mp hp).symm⟩

/-- C10: when the record's nameserver list is empty, the enrichment pass
installs at most the first 10 candidates from the matched block (each a
first whitespace-separated token containing `.` and longer than 3
characters), so the enriched nameserver list never exceeds 10 entries on
this path.  The spec does not state this limit. -/
theorem enrich_nameservers_le_ten (r : WhoisClient.WhoisRecord) (raw : String)
    (h : r.nameservers = []) :
    (WhoisClient.enrichFromRawData r raw).nameservers.length ≤ 10 ∧
    ∀ x ∈ (WhoisClient.enrichFromRawData r raw).nameservers,
      jsIncludesChar x '.' = true ∧ 3 < jsLength x := by
  have he : (WhoisClient.enrichFromRawData r raw).nameservers =
      (WhoisClient.extractNameservers raw).getD [] := by
    show WhoisClient.nsAfter r.nameservers raw = _
    rw [h]
    rfl
  rw [he]
  cases hx : WhoisClient.extractNameservers raw with
  | none => simp
  | some ns =>
    obtain ⟨block, hb⟩ := extractNameservers_cases raw ns hx
    simp only [Option.getD_some, hb]
    exact nsCandidates_le_ten block

/-- A raw WHOIS text whose nameserver block holds 12 candidate hostnames. -/
def manyNsRaw : String :=
  "Name servers:\nns01.example.com\nns02.example.com\nns03.example.com\n" ++
  "ns04.example.com\nns05.example.com\nns06.example.com\nns07.example.com\n" ++
  "ns08.example.com\nns09.example.com\nns10.example.com\nns11.example.com\n" ++
  "ns12.example.com\n\nWHOIS lookup made at 10:30:00"

/-- Witness for C10 at a block with 12 candidates: the enriched list stays
within the 10-entry limit. -/
theorem enrich_nameservers_le_ten_witness :
    (WhoisClient.enrichFromRawData { domain := "y.com", found := true }
      manyNsRaw).nameservers.length ≤ 10 :=
  (enrich_nameservers_le_ten { domain := "y.com", found := true } manyNsRaw rfl).1

/-! ## RdapClient (src/lib/rdap.js) -/

/-- A small model of JavaScript/JSON values as the RDAP client sees them. -/
inductive JVal where
  | undefVal
  | null
  | bool (b : Bool)
  | num (n : Int)
  | str (s : String)
  | arr (elems : List JVal)
  | obj (fields : List (String × JVal))

/-- JavaScript truthiness. -/
def jsTruthy : JVal → Bool
  | .undefVal => false
  | .null => false
  | .bool b => b
  | .num n => n != 0
  | .str s => s != ""
  | .arr _ => true
  | .obj _ => true

/-- Property access `v.key` / `v?.key` (undefined on non-objects and
missing keys). -/
def jGet : JVal → String → JVal
  | .obj fields, key => (fields.lookup key).getD .undefVal
  | _, _ => .undefVal

/-- Index access `v[i]` for arrays. -/
def jIndex : JVal → Nat → JVal
  | .arr xs, i => xs.getD i .undefVal
  | _, _ => .undefVal

/-- `v.length` for arrays and strings; undefined otherwise. -/
def jLen : JVal → Option Nat
  | .arr xs => some xs.length
  | .str s => some s.data.length
  | _ => none

/-- `v === "lit"` for a string literal. -/
def jStrEq (v : JVal) (t : String) : Bool :=
  match v with
  | .str s => s == t
  | _ => false

/-- The element list of an array value (empty otherwise). -/
def jElems : JVal → List JVal
  | .arr xs => xs
  | _ => []

/-- JavaScript `a || b` on values. -/
def jOrElse (v dflt : JVal) : JVal := if jsTruthy v then v else dflt

namespace RdapClient

structure VPhone where
  type : JVal
  value : JVal

structure VAddress where
  type : JVal
  poBox : JVal
  extendedAddress : JVal
  streetAddress : JVal
  locality : JVal
  region : JVal
  postalCode : JVal
  country : JVal

/-- The contact object built by `parseVCard` (fields appear only once
written, modelled as options). -/
structure VContact where
  name : Option JVal := none
  organization : Option JVal := none
  emails : Option (List JVal) := none
  phones : Option (List VPhone) := none
  addresses : Option (List VAddress) := none

/-- One member of the vCard array: members that are not arrays of length at
least 4 are skipped (`field.length < 4` continues the loop); a kept member
is destructured as `[property, params, type, value]`.  (A kept member whose
property is not a string would make the JavaScript code throw; such members
do not occur in jCard data and are modelled as skipped.) -/
def vcardStep (contact : VContact) (field : JVal) : VContact :=
  match field with
  | .arr (property :: params :: _vtype :: value :: _) =>
    match property with
    | .str p =>
      let pl := jsToLower p
      if pl == "fn" then { contact with name := some value }
      else if pl == "org" then
        let orgVal := match value with
          | .arr xs => xs.getD 0 .undefVal
          | v => v
        { contact with organization := some orgVal }
      else if pl == "email" then
        { contact with emails := some (contact.emails.getD [] ++ [value]) }
      else if pl == "tel" then
        let t := jGet params "type"
        { contact with phones := some (contact.phones.getD [] ++
            [{ type := jOrElse t (.str "voice"), value := value }]) }
      else if pl == "adr" then
        let base := contact.addresses.getD []
        match value with
        | .arr xs =>
          if 7 ≤ xs.length then
            { contact with addresses := some (base ++
                [{ type := jOrElse (jGet params "type") (.str "postal"),
                   poBox := xs.getD 0 .undefVal, extendedAddress := xs.getD 1 .undefVal,
                   streetAddress := xs.getD 2 .undefVal, locality := xs.getD 3 .undefVal,
                   region := xs.getD 4 .undefVal, postalCode := xs.getD 5 .undefVal,
                   country := xs.getD 6 .undefVal }]) }
          else { contact with addresses := some base }
        | _ => { contact with addresses := some base }
      else contact
    | _ => contact
  | _ => contact

/-- `RdapClient.parseVCard`: folds the member array into a contact;
non-array input yields the empty contact. -/
def parseVCard (vcard : JVal) : VContact :=
  match vcard with
  | .arr fields => fields.foldl vcardStep {}
  | _ => {}

structure RdapEntity where
  handle : JVal
  roles : JVal
  vcardArray : JVal
  status : JVal
  remarks : JVal
  links : JVal
  events : JVal
  publicIds : JVal
  contact : Option VContact := none

/-- `RdapClient.parseEntity`: copies the entity fields (roles defaulting to
an empty array) and parses the second element of a `vcardArray` of length
greater than 1 into `contact`. -/
def parseEntity (entity : JVal) : RdapEntity :=
  let parsed : RdapEntity :=
    { handle := jGet entity "handle",
      roles := jOrElse (jGet entity "roles") (.arr []),
      vcardArray := jGet entity "vcardArray",
      status := jGet entity "status",
      remarks := jGet entity "remarks",
      links := jGet entity "links",
      events := jGet entity "events",
      publicIds := jGet entity "publicIds" }
  if jsTruthy (jGet entity "vcardArray") &&
      1 < (jLen (jGet entity "vcardArray")).getD 0 then
    { parsed with contact := some (parseVCard (jIndex (jGet entity "vcardArray") 1)) }
  else parsed

structure RdapEvent where
  eventAction : JVal
  eventDate : JVal
  eventActor : JVal

structure RdapNs where
  ldhName : JVal
  unicodeName : JVal
  ipAddresses : JVal
  status : JVal

/-- The normalized record shape produced by the RDAP client.  The 404 path
stores the string `not_found` in `status`, the parse path an array, so the
field is a plain value. -/
structure RdapRecord where
  domain : String
  found : Bool
  lookupStatus : Option String := none
  message : Option String := none
  rdapConformance : JVal := .undefVal
  objectClassName : JVal := .undefVal
  ldhName : JVal := .undefVal
  unicodeName : JVal := .undefVal
  handle : JVal := .undefVal
  status : JVal := .undefVal
  events : List RdapEvent := []
  entities : List RdapEntity := []
  nameservers : List RdapNs := []
  secureDNS : JVal := .undefVal
  remarks : JVal := .undefVal
  links : JVal := .undefVal
  port43 : JVal := .undefVal
  rawData : JVal := .undefVal
  registrationDate : Option JVal := none
  expirationDate : Option JVal := none
  lastChangedDate : Option JVal := none

/-- `RdapClient.parseRdapResponse` on a JSON body (assumed well-formed in
the sense that the `events`, `entities` and `nameservers` fields are arrays
when truthy, as the RDAP data model requires). -/
def parseRdapResponse (data : JVal) (domain : String) : RdapRecord :=
  { domain := domain,
    found := true,
    lookupStatus := some "found",
    rdapConformance := jOrElse (jGet data "rdapConformance") (.arr []),
    objectClassName := jGet data "objectClassName",
    ldhName := jOrElse (jGet data "ldhName") (.str domain),
    unicodeName := jGet data "unicodeName",
    handle := jGet data "handle",
    status := jOrElse (jGet data "status") (.arr []),
    events :=
      if jsTruthy (jGet data "events") then
        (jElems (jGet data "events")).map (fun e =>
          { eventAction := jGet e "eventAction", eventDate := jGet e "eventDate",
            eventActor := jGet e "eventActor" })
      else [],
    entities :=
      if jsTruthy (jGet data "entities") then
        (jElems (jGet data "entities")).map parseEntity
      else [],
    nameservers :=
      if jsTruthy (jGet data "nameservers") then
        (jElems (jGet data "nameservers")).map (fun ns =>
          { ldhName := jGet ns "ldhName", unicodeName := jGet ns "unicodeName",
            ipAddresses := jGet ns "ipAddresses", status := jGet ns "status" })
      else [],
    secureDNS := jGet data "secureDNS",
    remarks := jOrElse (jGet data "remarks") (.arr []),
    links := jOrElse (jGet data "links") (.arr []),
    port43 := jGet data "port43",
    rawData := data,
    registrationDate :=
      ((jElems (jGet data "events")).find? (fun e =>
        jStrEq (jGet e "eventAction") "registration")).map (fun e => jGet e "eventDate"),
    expirationDate :=
      ((jElems (jGet data "events")).find? (fun e =>
        jStrEq (jGet e "eventAction") "expiration")).map (fun e => jGet e "eventDate"),
    lastChangedDate :=
      ((jElems (jGet data "events")).find? (fun e =>
        jStrEq (jGet e "eventAction") "last changed")).map (fun e => jGet e "eventDate") }

/-- The observable outcome of the `fetch` (plus `response.json()`) issued by
`RdapClient.lookupDomain`. -/
inductive FetchOutcome where
  | success (body : JVal)
  | httpError (code : Nat) (statusText : String)
  | timeoutErr
  | transportErr (msg : String)

def rdapTimeoutMs : Nat := 10000

/-- Response handling of `RdapClient.lookupDomain` (src lines 39-61): a 404
returns the definitive not-found record; any other non-ok status throws
`RDAP query failed: <status> <statusText>`; a `TimeoutError` from the
bounded fetch is rethrown as `RDAP query timed out after 10000ms`; any
other transport error propagates unchanged. -/
def handleLookupResponse (domain : String) (out : FetchOutcome) :
    Except String RdapRecord :=
  match out with
  | .success body => .ok (parseRdapResponse body domain)
  | .httpError code text =>
    if code == 404 then
      .ok { domain := domain, found := false, status := .str "not_found",
            message := some "Domain not found in registry" }
    else .error ("RDAP query failed: " ++ toString code ++ " " ++ text)
  | .timeoutErr =>
    .error ("RDAP query timed out after " ++ toString rdapTimeoutMs ++ "ms")
  | .transportErr m => .error m

end RdapClient

/-! ## Claims C4 and C5 -/

/-- C4: a 404 yields a returned record with found = false (no exception);
every other non-success HTTP status raises a failure whose message carries
the status and reason; a timeout raises the distinct timed-out message (an
error containing "timed out", not a not-found record and not a generic
transport message). -/
theorem rdap_status_handling (domain statusText : String) (code : Nat)
    (hnot : code ≠ 404) :
    (∃ r, RdapClient.handleLookupResponse domain (.httpError 404 statusText) =
        .ok r ∧ r.found = false) ∧
    RdapClient.handleLookupResponse domain (.httpError code statusText) =
      .error ("RDAP query failed: " ++ toString code ++ " " ++ statusText) ∧
    RdapClient.handleLookupResponse domain .timeoutErr =
      .error "RDAP query timed out after 10000ms" ∧
    (∃ pre post, ("RDAP query timed out after 10000ms" : String) =
      pre ++ "timed out" ++ post) := by
  refine ⟨⟨_, rfl, rfl⟩, ?_, rfl, ⟨"RDAP query ", " after 10000ms", rfl⟩⟩
  show (if (code == 404) = true then _ else
    Except.error ("RDAP query failed: " ++ toString code ++ " " ++ statusText)) = _
  rw [if_neg ?hcond]
  case hcond =>
    intro hceq
    exact hnot (beq_iff_eq.mp hceq)

/-- Witness for C4 at the concrete status 503 `Service Unavailable`. -/
theorem rdap_status_handling_witness :
    RdapClient.handleLookupResponse "example.com"
      (.httpError 503 "Service Unavailable") =
      .error "RDAP query failed: 503 Service Unavailable" := by
  have h := (rdap_status_handling "example.com" "Service Unavailable" 503
    (by decide)).2.1
  have heq : ("RDAP query failed: " ++ toString (503 : Nat) ++ " " ++
      "Service Unavailable") = "RDAP query failed: 503 Service Unavailable" := rfl
  rw [heq] at h
  exact h

/-- The frozen claim's reading of the vCard parser: every member is a
*triple* `[property, params, value]` (value the third element; members with
at least three elements interpreted), with the same case-insensitive
property routing. -/
def vcardTripleStep (contact : RdapClient.VContact) (field : JVal) :
    RdapClient.VContact :=
  match field with
  | .arr (property :: params :: value :: _) =>
    match property with
    | .str p =>
      let pl := jsToLower p
      if pl == "fn" then { contact with name := some value }
      else if pl == "org" then
        let orgVal := match value with
          | .arr xs => xs.getD 0 .undefVal
          | v => v
        { contact with organization := some orgVal }
      else if pl == "email" then
        { contact with emails := some (contact.emails.getD [] ++ [value]) }
      else if pl == "tel" then
        { contact with phones := some (contact.phones.getD [] ++
            [{ type := jOrElse (jGet params "type") (.str "voice"),
               value := value }]) }
      else if pl == "adr" then
        let base := contact.addresses.getD []
        match value with
        | .arr xs =>
          if 7 ≤ xs.length then
            { contact with addresses := some (base ++
                [{ type := jOrElse (jGet params "type") (.str "postal"),
                   poBox := xs.getD 0 .undefVal, extendedAddress := xs.getD 1 .undefVal,
                   streetAddress := xs.getD 2 .undefVal, locality := xs.getD 3 .undefVal,
                   region := xs.getD 4 .undefVal, postalCode := xs.getD 5 .undefVal,
                   country := xs.getD 6 .undefVal }]) }
          else { contact with addresses := some base }
        | _ => { contact with addresses := some base }
      else contact
    | _ => contact
  | _ => contact

/-- The vCard parser as the frozen claim describes it (triple members). -/
def parseVCardTriple (vcard : JVal) : RdapClient.VContact :=
  match vcard with
  | .arr fields => fields.foldl vcardTripleStep {}
  | _ => {}

/-- C5 counterexample: the code destructures members as quadruples
`[property, params, type, value]` and skips members with fewer than 4
elements.  The genuine triple `["fn", {}, "John Doe"]` therefore sets
nothing, while the claim's triple reading sets the contact name; and on a
4-element member the code takes the *fourth* element as the value, not the
third. -/
theorem parseVCard_triple_counterexample :
    (RdapClient.parseVCard
      (.arr [.arr [.str "fn", .obj [], .str "John Doe"]])).name = none ∧
    (parseVCardTriple
      (.arr [.arr [.str "fn", .obj [], .str "John Doe"]])).name =
      some (.str "John Doe") ∧
    (RdapClient.parseVCard
      (.arr [.arr [.str "fn", .obj [], .str "text", .str "John Doe"]])).name =
      some (.str "John Doe") ∧
    (parseVCardTriple
      (.arr [.arr [.str "fn", .obj [], .str "text", .str "John Doe"]])).name =
      some (.str "text") :=
  ⟨rfl, rfl, rfl, rfl⟩

/-- One member under the amended specification wording: a member that is an
array of at least four elements is the jCard entry
`[property, params, type, value]`; shorter members are skipped; the
property name is matched case-insensitively. -/
def vcardQuadSpecStep (contact : RdapClient.VContact) (field : JVal) :
    RdapClient.VContact :=
  match field with
  | .arr (property :: params :: _vtype :: value :: _) =>
    match property with
    | .str p =>
      match jsToLower p with
      | "fn" => { contact with name := some value }
      | "org" =>
        let orgVal := match value with
          | .arr xs => xs.getD 0 .undefVal
          | v => v
        { contact with organization := some orgVal }
      | "email" =>
        { contact with emails := some (contact.emails.getD [] ++ [value]) }
      | "tel" =>
        { contact with phones := some (contact.phones.getD [] ++
            [{ type := jOrElse (jGet params "type") (.str "voice"),
               value := value }]) }
      | "adr" =>
        let base := contact.addresses.getD []
        match value with
        | .arr xs =>
          if 7 ≤ xs.length then
            { contact with addresses := some (base ++
                [{ type := jOrElse (jGet params "type") (.str "postal"),
                   poBox := xs.getD 0 .undefVal, extendedAddress := xs.getD 1 .undefVal,
                   streetAddress := xs.getD 2 .undefVal, locality := xs.getD 3 .undefVal,
                   region := xs.getD 4 .undefVal, postalCode := xs.getD 5 .undefVal,
                   country := xs.getD 6 .undefVal }]) }
          else { contact with addresses := some base }
        | _ => { contact with addresses := some base }
      | _ => contact
    | _ => contact
  | _ => contact

/-- The vCard parser as the amended claim describes it. -/
def parseVCardQuadSpec (vcard : JVal) : RdapClient.VContact :=
  match vcard with
  | .arr fields => fields.foldl vcardQuadSpecStep {}
  | _ => {}

theorem vcardStep_eq_quadSpec (c : RdapClient.VContact) (f : JVal) :
    RdapClient.vcardStep c f = vcardQuadSpecStep c f := by
  unfold RdapClient.vcardStep vcardQuadSpecStep
  cases f with
  | arr elems =>
    cases elems with
    | nil => rfl
    | cons property elems1 =>
      cases elems1 with
      | nil => rfl
      | cons params elems2 =>
        cases elems2 with
        | nil => rfl
        | cons vtype elems3 =>
          cases elems3 with
          | nil => rfl
          | cons value rest =>
            cases property with
            | str p =>
              by_cases h1 : jsToLower p = "fn"
              · simp [h1]
              · by_cases h2 : jsToLower p = "org"
                · simp [h1, h2]
                · by_cases h3 : jsToLower p = "email"
                  · simp [h1, h2, h3]
                  · by_cases h4 : jsToLower p = "tel"
                    · simp [h1, h2, h3, h4]
                    · by_cases h5 : jsToLower p = "adr"
                      · simp [h1, h2, h3, h4, h5]
                      · simp [h1, h2, h3, h4, h5]
            | undefVal => rfl
            | null => rfl
            | bool b => rfl
            | num n => rfl
            | arr es => rfl
            | obj fields => rfl
  | undefVal => rfl
  | null => rfl
  | bool b => rfl
  | num n => rfl
  | str s => rfl
  | obj fields => rfl

/-- C5 (amended): the vCard parser interprets every member as a 4-element
jCard entry `[property, params, type, value]` (members with fewer than four
elements are skipped), matching the property case-insensitively: `fn` sets
the name, `org` the organization (first element when the value is a
sequence), `email` appends to the email list, `tel` appends a phone whose
type parameter defaults to `voice`, and `adr` appends the 7-component
postal address when the value has at least 7 components. -/
theorem parseVCard_quad (v : JVal) :
    RdapClient.parseVCard v = parseVCardQuadSpec v := by
  unfold RdapClient.parseVCard parseVCardQuadSpec
  cases v with
  | arr fields =>
    suffices h : ∀ (c : RdapClient.VContact),
        fields.foldl RdapClient.vcardStep c = fields.foldl vcardQuadSpecStep c from
      h {}
    induction fields with
    | nil => intro c; rfl
    | cons f t ih =>
      intro c
      simp only [List.foldl_cons, vcardStep_eq_quadSpec]
      exact ih _
  | undefVal => rfl
  | null => rfl
  | bool b => rfl
  | num n => rfl
  | str s => rfl
  | obj fs => rfl

/-! ## DomainLookupTool (src/tools/domain-lookup.js) -/

namespace DomainLookupTool

/-- A protocol client's normalized record as the orchestrator sees it. -/
inductive ClientRecord where
  | rdap (r : RdapClient.RdapRecord)
  | whois (w : WhoisClient.WhoisRecord)

def ClientRecord.domain : ClientRecord → String
  | .rdap r => r.domain
  | .whois w => w.domain

def ClientRecord.found : ClientRecord → Bool
  | .rdap r => r.found
  | .whois w => w.found

/-- `result.message` (only RDAP records carry one; the duck-typed read on a
WHOIS-shaped record yields undefined). -/
def ClientRecord.message : ClientRecord → Option String
  | .rdap r => r.message
  | .whois _ => none

/-- `result.error` (only WHOIS records carry one). -/
def ClientRecord.errorMsg : ClientRecord → Option String
  | .rdap _ => none
  | .whois w => w.error

/-- `result.message || result.error || 'Domain not found'`. -/
def notFoundMessage (rec : ClientRecord) : String :=
  if jsTruthyStr rec.message then rec.message.getD ""
  else if jsTruthyStr rec.errorMsg then rec.errorMsg.getD ""
  else "Domain not found"

/-- The common `status` output field (a JS value for RDAP, an array of
strings for WHOIS). -/
inductive StatusOut where
  | rdapVal (v : JVal)
  | whoisVal (l : List String)

/-- The common `nameservers` output field. -/
inductive NsOut where
  | rdapVal (l : List RdapClient.RdapNs)
  | whoisVal (l : List String)

/-- The `raw_data` output field. -/
inductive RawOut where
  | rdapVal (v : JVal)
  | whoisVal (s : String)

/-- `result.status && result.status.length > 0`. -/
def ClientRecord.statusNonempty : ClientRecord → Bool
  | .rdap r => jsTruthy r.status && 0 < (jLen r.status).getD 0
  | .whois w => 0 < w.status.length

def ClientRecord.statusOut : ClientRecord → StatusOut
  | .rdap r => .rdapVal r.status
  | .whois w => .whoisVal w.status

/-- `result.nameservers && result.nameservers.length > 0`. -/
def ClientRecord.nsNonempty : ClientRecord → Bool
  | .rdap r => 0 < r.nameservers.length
  | .whois w => 0 < w.nameservers.length

def ClientRecord.nsOut : ClientRecord → NsOut
  | .rdap r => .rdapVal r.nameservers
  | .whois w => .whoisVal w.nameservers

/-- `includeRaw && result.rawData` truthiness. -/
def ClientRecord.rawTruthy : ClientRecord → Bool
  | .rdap r => jsTruthy r.rawData
  | .whois w => jsTruthyStr w.rawData

def ClientRecord.rawOut : ClientRecord → RawOut
  | .rdap r => .rdapVal r.rawData
  | .whois w => .whoisVal (w.rawData.getD "")

/-- A contact entry of `formatRdapResult`'s `contacts`. -/
structure ContactOut where
  handle : JVal
  roles : JVal
  contact_info : Option RdapClient.VContact

/-- The `rdap` block of the published result. -/
structure RdapBlock where
  conformance : JVal
  object_class : JVal
  handle : JVal
  events : Option (List RdapClient.RdapEvent) := none
  registration_date : Option JVal := none
  expiration_date : Option JVal := none
  last_changed_date : Option JVal := none
  contacts : Option (List ContactOut) := none
  nameserver_details : Option (List RdapClient.RdapNs) := none
  dnssec : Option JVal := none
  remarks : Option JVal := none
  links : Option JVal := none
  whois_server : Option JVal := none

/-- Truthiness of an optional JS value field. -/
def jTruthyOpt : Option JVal → Bool
  | some v => jsTruthy v
  | none => false

/-- `DomainLookupTool.formatRdapResult`.  On a WHOIS-shaped record every
duck-typed field read yields undefined, so the block is empty. -/
def formatRdapResult : ClientRecord → RdapBlock
  | .rdap r =>
    { conformance := r.rdapConformance,
      object_class := r.objectClassName,
      handle := r.handle,
      events := if 0 < r.events.length then some r.events else none,
      registration_date :=
        if jTruthyOpt r.registrationDate then r.registrationDate else none,
      expiration_date :=
        if jTruthyOpt r.expirationDate then r.expirationDate else none,
      last_changed_date :=
        if jTruthyOpt r.lastChangedDate then r.lastChangedDate else none,
      contacts :=
        if 0 < r.entities.length then
          some (r.entities.map (fun e =>
            { handle := e.handle, roles := e.roles, contact_info := e.contact }))
        else none,
      nameserver_details :=
        if 0 < r.nameservers.length then some r.nameservers else none,
      dnssec := if jsTruthy r.secureDNS then some r.secureDNS else none,
      remarks :=
        if jsTruthy r.remarks && 0 < (jLen r.remarks).getD 0 then some r.remarks
        else none,
      links :=
        if jsTruthy r.links && 0 < (jLen r.links).getD 0 then some r.links
        else none,
      whois_server := if jsTruthy r.port43 then some r.port43 else none }
  | .whois _ => { conformance := .undefVal, object_class := .undefVal, handle := .undefVal }

/-- The `whois` block of the published result. -/
structure WhoisBlock where
  registrar : Option String := none
  registrant : Option WhoisClient.WRegistrant := none
  admin_contact : Option WhoisClient.WContact := none
  technical_contact : Option WhoisClient.WContact := none
  billing_contact : Option WhoisClient.WContact := none
  dates : Option WhoisClient.WDates := none
  dnssec : Option String := none

/-- `DomainLookupTool.formatWhoisResult`.  On an RDAP-shaped record every
duck-typed field read yields undefined, so the block is empty. -/
def formatWhoisResult : ClientRecord → WhoisBlock
  | .whois w =>
    { registrar := if jsTruthyStr w.registrar then w.registrar else none,
      registrant := w.registrant,
      admin_contact := w.adminContact,
      technical_contact := w.techContact,
      billing_contact := w.billingContact,
      dates :=
        if w.dates.created.isSome || w.dates.expires.isSome ||
            w.dates.updated.isSome then
          some w.dates
        else none,
      dnssec := if jsTruthyStr w.dnssec then w.dnssec else none }
  | .rdap _ => {}

/-- The orchestrator's tags on the record it is about to publish (the JS
code mutates the record object; the tags are modelled alongside it). -/
structure Tagged where
  record : ClientRecord
  method : String
  fallback_used : Bool := false
  primary_method_failed : Option String := none
  primary_method_error : Option String := none
  fallback_error : Option String := none

/-- The published result shape. -/
structure Formatted where
  domain : String
  found : Bool
  method : String
  timestamp : String
  fallback_used : Option Bool := none
  primary_method_failed : Option String := none
  primary_method_error : Option String := none
  fallback_error : Option String := none
  message : Option String := none
  status : Option StatusOut := none
  nameservers : Option NsOut := none
  rdap : Option RdapBlock := none
  whois : Option WhoisBlock := none
  raw_data : Option RawOut := none

/-- `DomainLookupTool.formatResult` (`now` is the `new Date().toISOString()`
timestamp, passed explicitly). -/
def formatResult (result : Tagged) (includeRaw : Bool) (now : String) :
    Formatted :=
  let base : Formatted :=
    { domain := result.record.domain, found := result.record.found,
      method := result.method, timestamp := now }
  let base :=
    if result.fallback_used then
      { base with
        fallback_used := some true,
        primary_method_failed := result.primary_method_failed }
    else base
  let base :=
    if jsTruthyStr result.primary_method_error then
      { base with primary_method_error := result.primary_method_error }
    else base
  let base :=
    if jsTruthyStr result.fallback_error then
      { base with fallback_error := result.fallback_error }
    else base
  if result.record.found = false then
    { base with message := some (notFoundMessage result.record) }
  else
    let base :=
      if result.record.statusNonempty then
        { base with status := some result.record.statusOut }
      else base
    let base :=
      if result.record.nsNonempty then
        { base with nameservers := some result.record.nsOut }
      else base
    let base :=
      if result.method == "rdap" then
        { base with rdap := some (formatRdapResult result.record) }
      else { base with whois := some (formatWhoisResult result.record) }
    if includeRaw && result.record.rawTruthy then
      { base with raw_data := some result.record.rawOut }
    else base

/-- `DomainLookupTool.execute`, with the observable outcomes of the two
protocol clients on this domain passed as oracles (`Except.error` models a
thrown exception).  Mirrors the source control flow: primary attempt;
fallback on `found: false` (keeping the primary record when the fallback
also misses, tagging `fallback_error` when the fallback throws); fallback on
a primary throw; a single combined error when both throw. -/
def execute (domain : String) (prefer_whois include_raw : Bool) (now : String)
    (rdapOutcome whoisOutcome : Except String ClientRecord) :
    Except String Formatted :=
  if domain = "" then .error "Domain parameter is required"
  else
    let primaryMethod := if prefer_whois then "whois" else "rdap"
    let fallbackMethod := if prefer_whois then "rdap" else "whois"
    match (if prefer_whois then whoisOutcome else rdapOutcome) with
    | .ok prec =>
      let result : Tagged := { record := prec, method := primaryMethod }
      if prec.found = false then
        match (if prefer_whois then rdapOutcome else whoisOutcome) with
        | .ok frec =>
          if frec.found then
            .ok (formatResult
              { record := frec, method := fallbackMethod, fallback_used := true,
                primary_method_failed := some primaryMethod } include_raw now)
          else .ok (formatResult result include_raw now)
        | .error fe =>
          .ok (formatResult { result with fallback_error := some fe }
            include_raw now)
      else .ok (formatResult result include_raw now)
    | .error e =>
      match (if prefer_whois then rdapOutcome else whoisOutcome) with
      | .ok frec =>
        .ok (formatResult
          { record := frec, method := fallbackMethod, fallback_used := true,
            primary_method_error := some e } include_raw now)
      | .error fe =>
        .error ("Both RDAP and WHOIS lookups failed. RDAP: " ++
          (if primaryMethod == "rdap" then e else fe) ++ ", WHOIS: " ++
          (if primaryMethod == "whois" then e else fe))

end DomainLookupTool

/-! ## Claims C2 and C3 -/

theorem formatResult_tags (t : DomainLookupTool.Tagged) (includeRaw : Bool)
    (now : String) :
    (DomainLookupTool.formatResult t includeRaw now).method = t.method ∧
    (DomainLookupTool.formatResult t includeRaw now).fallback_used =
      (if t.fallback_used then some true else none) ∧
    (DomainLookupTool.formatResult t includeRaw now).primary_method_failed =
      (if t.fallback_used then t.primary_method_failed else none) ∧
    (DomainLookupTool.formatResult t includeRaw now).found = t.record.found ∧
    (DomainLookupTool.formatResult t includeRaw now).domain = t.record.domain ∧
    (DomainLookupTool.formatResult t includeRaw now).timestamp = now ∧
    (DomainLookupTool.formatResult t includeRaw now).primary_method_error =
      (if jsTruthyStr t.primary_method_error then t.primary_method_error
       else none) ∧
    (DomainLookupTool.formatResult t includeRaw now).fallback_error =
      (if jsTruthyStr t.fallback_error then t.fallback_error else none) := by
  refine ⟨?_, ?_, ?_, ?_, ?_, ?_, ?_, ?_⟩ <;>
    simp only [DomainLookupTool.formatResult,
      apply_ite DomainLookupTool.Formatted.method,
      apply_ite DomainLookupTool.Formatted.fallback_used,
      apply_ite DomainLookupTool.Formatted.primary_method_failed,
      apply_ite DomainLookupTool.Formatted.found,
      apply_ite DomainLookupTool.Formatted.domain,
      apply_ite DomainLookupTool.Formatted.timestamp,
      apply_ite DomainLookupTool.Formatted.primary_method_error,
      apply_ite DomainLookupTool.Formatted.fallback_error,
      ite_self]

/-- C2: for every domain and preferred protocol, if the primary client
returns a record with found: false and the fallback client returns a record
with found: true, the outcome of execute has fallback_used: true, method
equal to the fallback protocol's name, and primary_method_failed equal to
the primary protocol's name. -/
theorem execute_fallback_found (domain now : String)
    (prefer_whois include_raw : Bool)
    (rdapOutcome whoisOutcome : Except String DomainLookupTool.ClientRecord)
    (p f : DomainLookupTool.ClientRecord)
    (hdom : domain ≠ "")
    (hp : (if prefer_whois then whoisOutcome else rdapOutcome) = .ok p)
    (hf : (if prefer_whois then rdapOutcome else whoisOutcome) = .ok f)
    (hpf : p.found = false) (hff : f.found = true) :
    ∃ fmt, DomainLookupTool.execute domain prefer_whois include_raw now
        rdapOutcome whoisOutcome = .ok fmt ∧
      fmt.fallback_used = some true ∧
      fmt.method = (if prefer_whois then "rdap" else "whois") ∧
      fmt.primary_method_failed =
        some (if prefer_whois then "whois" else "rdap") := by
  have hx : DomainLookupTool.execute domain prefer_whois include_raw now
      rdapOutcome whoisOutcome =
      .ok (DomainLookupTool.formatResult
        { record := f, method := (if prefer_whois then "rdap" else "whois"),
          fallback_used := true,
          primary_method_failed :=
            some (if prefer_whois then "whois" else "rdap") }
        include_raw now) := by
    unfold DomainLookupTool.execute
    rw [if_neg hdom]
    simp only [hp, hf, hpf, hff, eq_self_iff_true, if_true]
  obtain ⟨hm, hfb, hpmf, _⟩ := formatResult_tags
    { record := f, method := (if prefer_whois then "rdap" else "whois"),
      fallback_used := true,
      primary_method_failed := some (if prefer_whois then "whois" else "rdap") }
    include_raw now
  exact ⟨_, hx, by simpa using hfb, by simpa using hm, by simpa using hpmf⟩

/-- The RDAP 404 not-found record for `example.com`. -/
def rdapNotFoundRec : DomainLookupTool.ClientRecord :=
  .rdap { domain := "example.com", found := false, status := .str "not_found",
          message := some "Domain not found in registry" }

/-- A found WHOIS record for `example.com`. -/
def whoisFoundRec : DomainLookupTool.ClientRecord :=
  .whois { domain := "example.com", found := true,
           rawData := some "Domain Name: example.com",
           registrar := some "Acme Registrar" }

/-- Witness for C2: RDAP primary misses (404), WHOIS fallback finds. -/
theorem execute_fallback_found_witness :
    (DomainLookupTool.execute "example.com" false false
        "2026-01-01T00:00:00.000Z" (.ok rdapNotFoundRec)
        (.ok whoisFoundRec)).map DomainLookupTool.Formatted.fallback_used =
      .ok (some true) ∧
    (DomainLookupTool.execute "example.com" false false
        "2026-01-01T00:00:00.000Z" (.ok rdapNotFoundRec)
        (.ok whoisFoundRec)).map DomainLookupTool.Formatted.method =
      .ok "whois" ∧
    (DomainLookupTool.execute "example.com" false false
        "2026-01-01T00:00:00.000Z" (.ok rdapNotFoundRec)
        (.ok whoisFoundRec)).map
          DomainLookupTool.Formatted.primary_method_failed =
      .ok (some "rdap") := by
  obtain ⟨fmt, hx, h1, h2, h3⟩ := execute_fallback_found "example.com"
    "2026-01-01T00:00:00.000Z" false false (.ok rdapNotFoundRec)
    (.ok whoisFoundRec) rdapNotFoundRec whoisFoundRec (by decide) rfl rfl rfl rfl
  refine ⟨?_, ?_, ?_⟩ <;> rw [hx] <;> simp [Except.map, h1, h2, h3]

/-- C3: when the primary client throws and the fallback client also throws,
execute raises exactly one combined error whose message contains both
protocol names (`RDAP`, `WHOIS`) and both underlying failure messages (each
routed to its protocol's slot). -/
theorem execute_both_fail (domain now : String) (prefer_whois include_raw : Bool)
    (rdapOutcome whoisOutcome : Except String DomainLookupTool.ClientRecord)
    (e1 e2 : String)
    (hdom : domain ≠ "")
    (hp : (if prefer_whois then whoisOutcome else rdapOutcome) = .error e1)
    (hf : (if prefer_whois then rdapOutcome else whoisOutcome) = .error e2) :
    ∃ m, DomainLookupTool.execute domain prefer_whois include_raw now
        rdapOutcome whoisOutcome = .error m ∧
      m = "Both RDAP and WHOIS lookups failed. RDAP: " ++
        (if prefer_whois then e2 else e1) ++ ", WHOIS: " ++
        (if prefer_whois then e1 else e2) ∧
      (∃ l r, m.data = l ++ "RDAP".data ++ r) ∧
      (∃ l r, m.data = l ++ "WHOIS".data ++ r) ∧
      (∃ l r, m.data = l ++ e1.data ++ r) ∧
      (∃ l r, m.data = l ++ e2.data ++ r) := by
  have hx : DomainLookupTool.execute domain prefer_whois include_raw now
      rdapOutcome whoisOutcome =
      .error ("Both RDAP and WHOIS lookups failed. RDAP: " ++
        (if prefer_whois then e2 else e1) ++ ", WHOIS: " ++
        (if prefer_whois then e1 else e2)) := by
    unfold DomainLookupTool.execute
    rw [if_neg hdom]
    cases prefer_whois with
    | false =>
      rw [hp, hf]
      rfl
    | true =>
      rw [hp, hf]
      rfl
  refine ⟨_, hx, rfl, ?_, ?_, ?_, ?_⟩
  · exact ⟨"Both ".data,
      " and WHOIS lookups failed. RDAP: ".data ++
        (if prefer_whois then e2 else e1).data ++ ", WHOIS: ".data ++
        (if prefer_whois then e1 else e2).data, by simp⟩
  · exact ⟨"Both RDAP and ".data,
      " lookups failed. RDAP: ".data ++
        (if prefer_whois then e2 else e1).data ++ ", WHOIS: ".data ++
        (if prefer_whois then e1 else e2).data, by simp⟩
  · cases prefer_whois with
    | false =>
      exact ⟨"Both RDAP and WHOIS lookups failed. RDAP: ".data,
        ", WHOIS: ".data ++ e2.data, by simp⟩
    | true =>
      exact ⟨"Both RDAP and WHOIS lookups failed. RDAP: ".data ++ e2.data ++
        ", WHOIS: ".data, [], by simp⟩
  · cases prefer_whois with
    | false =>
      exact ⟨"Both RDAP and WHOIS lookups failed. RDAP: ".data ++ e1.data ++
        ", WHOIS: ".data, [], by simp⟩
    | true =>
      exact ⟨"Both RDAP and WHOIS lookups failed. RDAP: ".data,
        ", WHOIS: ".data ++ e1.data, by simp⟩

/-- Witness for C3: RDAP primary times out, WHOIS fallback fails too. -/
theorem execute_both_fail_witness :
    DomainLookupTool.execute "example.com" false false
      "2026-01-01T00:00:00.000Z"
      (.error "RDAP query timed out after 10000ms")
      (.error "WHOIS lookup failed: boom") =
      .error ("Both RDAP and WHOIS lookups failed. RDAP: RDAP query timed " ++
        "out after 10000ms, WHOIS: WHOIS lookup failed: boom") := by
  obtain ⟨m, hx, hm, _⟩ := execute_both_fail "example.com"
    "2026-01-01T00:00:00.000Z" false false
    (.error "RDAP query timed out after 10000ms")
    (.error "WHOIS lookup failed: boom")
    "RDAP query timed out after 10000ms" "WHOIS lookup failed: boom"
    (by decide) rfl rfl
  rw [hx, hm]
  rfl
